import Mathlib

/-!
Shallow embedding of the Unsplash photo-search client service
(src/app/services/unsplash.js) and proofs about it.

Modelling conventions:
* JavaScript numbers that hold JSON numeric data and the derived height
  ratios are modelled by the rationals.  JSON numeric literals are finite
  decimals, so this is exact; the embedding does not model the
  floating-point special values NaN and Infinity.  The only code paths
  that could produce them (a photo record without finite numeric
  width/height, or a zero width) are mapped to the thrown/failure case of
  the surrounding forEach, and no theorem below depends on them.
* JavaScript values flowing through the error-handling code (strings,
  undefined, parsed JSON) are modelled by `JsVal := Option Json`, with
  `none` playing the role of undefined.
* Promise results are modelled with `Except`: `Except.ok` is a resolved
  promise, `Except.error` a rejected one.
* Mutation of the Ember service state is modelled by explicit state
  passing over the record `ClientState`.
-/

namespace Unsplash

/-- Minimal JSON value universe, sufficient for the response bodies the
service inspects (`json.errors[0]`, `response.results`, photo records). -/
inductive Json where
  | jNull : Json
  | jNum : ℚ → Json
  | jStr : String → Json
  | jArr : List Json → Json
  | jObj : List (String × Json) → Json
deriving Repr

/-- JavaScript value as seen by the error-handling code: either undefined
(`none`) or a JSON-representable value. -/
abbrev JsVal : Type := Option Json

/-- JavaScript truthiness on the modelled value universe: undefined, null,
the empty string and the number 0 are falsy, everything else truthy. -/
def jsTruthy : JsVal → Bool
  | none => false
  | some Json.jNull => false
  | some (Json.jStr s) => !s.isEmpty
  | some (Json.jNum q) => if q = 0 then false else true
  | some (Json.jArr _) => true
  | some (Json.jObj _) => true

/-- The JavaScript expression a || b on modelled values. -/
def jsOr (a b : JsVal) : JsVal := if jsTruthy a then a else b

/-- Photo record; `ratio` is the field assigned by the service in
`_addPhoto` (photo.ratio = photo.height / photo.width). -/
structure Photo where
  width : ℚ
  height : ℚ
  ratio : ℚ
deriving Repr, DecidableEq

/-- The columns and the parallel running-height list maintained by the
service (fields `columns` and `_columnHeights`). -/
structure ColumnState where
  columns : List (List Photo)
  heights : List ℚ
deriving Repr

/-- Math.min over a non-empty list of heights (the value on the empty list
is irrelevant to the embedding and fixed at 0). -/
def listMin : List ℚ → ℚ
  | [] => 0
  | [x] => x
  | x :: y :: xs => min x (listMin (y :: xs))

/-- Largest entry of a non-empty list of heights (0 on the empty list). -/
def listMax : List ℚ → ℚ
  | [] => 0
  | [x] => x
  | x :: y :: xs => max x (listMax (y :: xs))

/-- Index of the first occurrence of the minimum, mirroring the source
expression this._columnHeights.indexOf(Math.min(...this._columnHeights)). -/
def minIdx : List ℚ → Nat
  | [] => 0
  | [_] => 0
  | x :: y :: xs => if x ≤ listMin (y :: xs) then 0 else minIdx (y :: xs) + 1

/-- Source `_addPhotoToColumns`: add 300 * photo.ratio to the least-loaded
column height (lowest index on ties) and append the photo to that column.
With an empty column set the JavaScript code throws a TypeError at
columns[-1].pushObject; the embedding leaves the state unchanged — in both
semantics the photo lands in no column. -/
def addPhotoToColumns (photo : Photo) (cs : ColumnState) : ColumnState :=
  let columnIndex := minIdx cs.heights
  { columns := cs.columns.set columnIndex ((cs.columns.getD columnIndex []) ++ [photo]),
    heights := cs.heights.set columnIndex ((cs.heights.getD columnIndex 0) + 300 * photo.ratio) }

/-- Column state as produced by `_resetColumns` before re-adding photos:
n empty columns with all accumulated heights zero. -/
def emptyColumns (n : Nat) : ColumnState :=
  { columns := List.replicate n [], heights := List.replicate n 0 }

/-- Adding a list of photos one-by-one, in list order, via the balancing
rule (the forEach loops of `_addPhotosFromResponse` and `_resetColumns`). -/
def addAll (ps : List Photo) (cs : ColumnState) : ColumnState :=
  ps.foldl (fun acc p => addPhotoToColumns p acc) cs

/-- Full service state (the Ember object fields the claims mention). -/
structure ClientState where
  columnCount : Nat
  columns : List (List Photo)
  columnHeights : List ℚ
  photos : List Photo
  pagination : List (String × String)
  searchTerm : String
  error : JsVal
  lastRequestUrl : Option String
deriving Repr

/-- Lookup in the pagination mapping; a later entry for the same rel name
overrides an earlier one, as JavaScript object assignment does. -/
def pagGet (pagination : List (String × String)) (relName : String) : Option String :=
  pagination.reverse.lookup relName

/-- Source `_resetColumns`: rebuild columns and heights from scratch for
the current column count, re-adding every photo of the flat list in order. -/
def resetColumns (st : ClientState) : ClientState :=
  let cs := addAll st.photos (emptyColumns st.columnCount)
  { st with columns := cs.columns, columnHeights := cs.heights }

/-- Source `_reset`: clear photos and pagination, then rebuild columns. -/
def reset (st : ClientState) : ClientState :=
  resetColumns { st with photos := [], pagination := [] }

/-- Source `changeColumnCount`. -/
def changeColumnCount (newColumnCount : Nat) (st : ClientState) : ClientState :=
  if newColumnCount ≠ st.columnCount then
    resetColumns { st with columnCount := newColumnCount }
  else st

/-- Source `_addPhoto`: pre-calculate the ratio, append to the flat photo
list, then add to the least-populated column. -/
def addPhoto (photo : Photo) (st : ClientState) : ClientState :=
  let p : Photo := { photo with ratio := photo.height / photo.width }
  let cs := addPhotoToColumns p { columns := st.columns, heights := st.columnHeights }
  { st with photos := st.photos ++ [p], columns := cs.columns, columnHeights := cs.heights }

/-- The state of the service right after `init` (columnCount defaults to 3
and `init` calls `_reset`). -/
def initState : ClientState :=
  reset { columnCount := 3, columns := [], columnHeights := [], photos := [],
          pagination := [], searchTerm := "", error := some (Json.jStr ""),
          lastRequestUrl := none }

/-- HTTP response as consumed by the service.  `jsonBody` is the outcome
of response.json() (`none` when the body is not valid JSON, so the promise
rejects); `textBody` the outcome of response.text(). -/
structure Response where
  status : Nat
  contentType : Option String
  rateLimitRemaining : Option String
  link : Option String
  jsonBody : Option Json
  textBody : String
deriving Repr

/-- Outcome of a fetch call: a network-level failure (the fetch promise
rejects, no response at all) or a received response. -/
inductive FetchOutcome where
  | failure : FetchOutcome
  | success : Response → FetchOutcome

def API_URL : String := "https://api.unsplash.com"

def defaultUrl : String := API_URL ++ "/photos?per_page=30"

def searchUrl (term : String) : String :=
  API_URL ++ "/search/photos?query=" ++ term ++ "&per_page=30"

def ratelimitMsg : String := "Unsplash API rate limit reached, please try again later."

def connectivityMsg : String :=
  "Uh-oh! Trouble reaching the Unsplash API, please check your connection"

def genericMsg (status : Nat) : String :=
  "Error " ++ toString status ++ ": Uh-oh! Trouble reaching the Unsplash API"

/-- The JavaScript expression json.errors[0]: `Except.error` models a
thrown TypeError (property access on undefined or null), `Except.ok`
the resulting value (possibly undefined). -/
def errorsHead (j : Json) : Except Unit JsVal :=
  match j with
  | Json.jObj fields =>
    match fields.lookup "errors" with
    | some (Json.jArr xs) => Except.ok xs.head?
    | some (Json.jObj fs) => Except.ok (fs.lookup "0")
    | some (Json.jStr s) =>
      Except.ok (match s.data with
                 | [] => none
                 | c :: _ => some (Json.jStr (String.mk [c])))
    | some (Json.jNum _) => Except.ok none
    | some Json.jNull => Except.error ()
    | none => Except.error ()
  | _ => Except.error ()

/-- Source `_checkStatus`.  Returns the updated state plus the promise
outcome: `ok` passes the response through on a 2xx status; on other
statuses the derived message is stored in the error field and the promise
rejects with it; `error none` models a rejection of the body-reading
promise itself (invalid JSON, or json.errors[0] throwing), in which case
the error field is not touched. -/
def checkStatus (response : Response) (st : ClientState) : ClientState × Except JsVal Response :=
  if 200 ≤ response.status ∧ response.status < 300 then
    (st, Except.ok response)
  else
    let responseTextPromise : Except Unit JsVal :=
      if response.contentType = some "application/json" then
        match response.jsonBody with
        | none => Except.error ()
        | some j => errorsHead j
      else if response.contentType = some "text/xml" then
        Except.ok (some (Json.jStr response.textBody))
      else Except.ok none
    match responseTextPromise with
    | Except.error _ => (st, Except.error none)
    | Except.ok responseText =>
      let errorText : JsVal :=
        if response.status = 403 ∧ response.rateLimitRemaining = some "0" then
          some (Json.jStr ratelimitMsg)
        else some (Json.jStr "")
      let resolved : JsVal :=
        jsOr errorText (jsOr responseText (some (Json.jStr (genericMsg response.status))))
      ({ st with error := resolved }, Except.error resolved)

/-- Characters of the literal part >; rel=" of the Link-header pattern. -/
def sepChars : List Char := String.data ">; rel=\""

/-- Is i a viable start for the greedy first capture group to stop at:
the separator occurs at i and a closing double quote occurs after it. -/
def sepViable (r : List Char) (i : Nat) : Bool :=
  sepChars.isPrefixOf (r.drop i) && (r.drop (i + sepChars.length)).contains '"'

/-- Largest viable separator position (the first .* group is greedy). -/
def lastSepIdx (r : List Char) : Option Nat :=
  ((List.range (r.length + 1)).filter (sepViable r)).getLast?

/-- Largest position of a double quote (the second .* group is greedy). -/
def lastQuoteIdx (r : List Char) : Option Nat :=
  ((List.range r.length).filter (fun j => r.getD j ' ' = '"')).getLast?

/-- Result of linkRegex.exec on one Link-header entry, for the unanchored
pattern with two greedy capture groups used by `_extractPagination`:
`none` models a null result (no match), `some (url, rel)` the two capture
groups of the leftmost match. -/
def linkExec (s : String) : Option (String × String) :=
  let cs := s.data
  match cs.findIdx? (fun c => c = '<') with
  | none => none
  | some p =>
    let r := cs.drop (p + 1)
    match lastSepIdx r with
    | none => none
    | some i =>
      let r2 := r.drop (i + sepChars.length)
      match lastQuoteIdx r2 with
      | none => none
      | some j => some (String.mk (r.take i), String.mk (r2.take j))

/-- JavaScript String.split(',') on the character list: split at every
comma, keeping empty pieces. -/
def splitChars : List Char → List (List Char)
  | [] => [[]]
  | c :: rest =>
    match splitChars rest with
    | [] => [[]]
    | g :: gs => if c = ',' then [] :: g :: gs else (c :: g) :: gs

/-- JavaScript link.split(','). -/
def splitComma (s : String) : List String :=
  (splitChars s.data).map (fun g => String.mk g)

/-- Source `_extractPagination`.  A present, non-empty Link header is
split on commas and each entry destructured against the pattern; if any
entry fails to match, the destructuring of the null exec result throws a
TypeError before this._pagination is assigned, so the old mapping is kept
and the promise rejects.  Otherwise (including an absent or empty header)
the mapping is replaced wholesale. -/
def extractPagination (response : Response) (st : ClientState) : ClientState × Except JsVal Response :=
  match response.link with
  | none => ({ st with pagination := [] }, Except.ok response)
  | some l =>
    if l = "" then
      ({ st with pagination := [] }, Except.ok response)
    else
      let entries := splitComma l
      if entries.all (fun e => (linkExec e).isSome) then
        ({ st with pagination :=
             entries.filterMap (fun e => (linkExec e).map (fun g => (g.2, g.1))) },
         Except.ok response)
      else (st, Except.error none)

/-- The list the service iterates over: response.results when that field
is a truthy array, else the response itself when it is an array; any other
shape makes the subsequent forEach call throw (`none`). -/
def responseList (j : Json) : Option (List Json) :=
  match j with
  | Json.jArr xs => some xs
  | Json.jObj fields =>
    match fields.lookup "results" with
    | some (Json.jArr xs) => some xs
    | _ => none
  | _ => none

/-- One iteration of the forEach in `_addPhotosFromResponse`: the entry
must be an object with finite numeric width and height fields, width
non-zero (see the header comment on the number model); otherwise the
iteration is modelled as throwing. -/
def addPhotoFromJson (e : Json) (st : ClientState) : Option ClientState :=
  match e with
  | Json.jObj fields =>
    match fields.lookup "width", fields.lookup "height" with
    | some (Json.jNum w), some (Json.jNum h) =>
      if w = 0 then none else some (addPhoto { width := w, height := h, ratio := 0 } st)
    | _, _ => none
  | _ => none

/-- The forEach loop over the photo entries; an entry that throws stops
the loop, keeping the photos added so far. -/
def addPhotoList : List Json → ClientState → ClientState × Except Unit Unit
  | [], st => (st, Except.ok ())
  | e :: rest, st =>
    match addPhotoFromJson e st with
    | none => (st, Except.error ())
    | some st1 => addPhotoList rest st1

/-- Source `_addPhotosFromResponse`. -/
def addPhotosFromResponse (j : Json) (st : ClientState) : ClientState × Except Unit Unit :=
  match responseList j with
  | none => (st, Except.error ())
  | some xs => addPhotoList xs st

/-- The promise chain of `_makeRequest` before its catch handler: clear
the error field, remember the url, then fetch / `_checkStatus` /
`_extractPagination` / response.json() / `_addPhotosFromResponse`, with
any rejection short-circuiting the rest of the chain. -/
def makeRequestChain (url : String) (outcome : FetchOutcome) (st : ClientState) :
    ClientState × Except Unit Unit :=
  let st0 := { st with error := some (Json.jStr ""), lastRequestUrl := some url }
  match outcome with
  | FetchOutcome.failure => (st0, Except.error ())
  | FetchOutcome.success response =>
    match checkStatus response st0 with
    | (st1, Except.error _) => (st1, Except.error ())
    | (st1, Except.ok r1) =>
      match extractPagination r1 st1 with
      | (st2, Except.error _) => (st2, Except.error ())
      | (st2, Except.ok r2) =>
        match r2.jsonBody with
        | none => (st2, Except.error ())
        | some j => addPhotosFromResponse j st2

/-- Source `_makeRequest`: the chain above with the catch handler that
swallows every rejection, setting the generic connectivity message when no
error text has been recorded yet.  The returned promise always resolves
with no result, so the result type is just the final state. -/
def makeRequest (url : String) (outcome : FetchOutcome) (st : ClientState) : ClientState :=
  match makeRequestChain url outcome st with
  | (st1, Except.ok _) => st1
  | (st1, Except.error _) =>
    if jsTruthy st1.error then st1
    else { st1 with error := some (Json.jStr connectivityMsg) }

/-- Source `sendTestRequest`: fetch against the lightweight endpoint with
the caller-supplied credential, then `_checkStatus` — with no catch, so a
network failure or a non-2xx rejection propagates to the caller. -/
def sendTestRequest (testApplicationId : String) (outcome : FetchOutcome)
    (st : ClientState) : ClientState × Except JsVal Response :=
  match outcome with
  | FetchOutcome.failure => (st, Except.error none)
  | FetchOutcome.success response => checkStatus response st

/-- Observable result of a public load operation: the final service
state, the url of the HTTP request it issued (if any), and the outcome
its caller sees (`ok` a resolution without result, `error` a rejection). -/
structure OpResult where
  state : ClientState
  request : Option String
  outcome : Except JsVal Unit
deriving Repr

/-- Source `loadNew`: reset all photo/column/pagination state, then
perform the `_loadNew` task.  `loadingRunning` models the drop() policy of
the `_loadingTasks` group: when another loading task is running the
perform is dropped and no request is issued (the reset still happened). -/
def loadNew (outcome : FetchOutcome) (loadingRunning : Bool) (st : ClientState) : OpResult :=
  let st0 := reset st
  if loadingRunning then { state := st0, request := none, outcome := Except.ok () }
  else { state := makeRequest defaultUrl outcome st0, request := some defaultUrl,
         outcome := Except.ok () }

/-- Source `loadNextPage`: no-op while a search is running; with an empty
photo list perform `_loadNew` (without the reset); with a truthy "next"
pagination entry request it; otherwise return a rejected promise. -/
def loadNextPage (outcome : FetchOutcome) (searchRunning loadingRunning : Bool)
    (st : ClientState) : OpResult :=
  if searchRunning then { state := st, request := none, outcome := Except.ok () }
  else if st.photos = [] then
    (if loadingRunning then { state := st, request := none, outcome := Except.ok () }
     else { state := makeRequest defaultUrl outcome st, request := some defaultUrl,
            outcome := Except.ok () })
  else
    match pagGet st.pagination "next" with
    | some nextUrl =>
      if nextUrl = "" then { state := st, request := none, outcome := Except.error none }
      else if loadingRunning then { state := st, request := none, outcome := Except.ok () }
      else { state := makeRequest nextUrl outcome st, request := some nextUrl,
             outcome := Except.ok () }
    | none => { state := st, request := none, outcome := Except.error none }

/-- Discrete event for the debounce model: an `updateSearch` call, or the
elapse of a full debounce quiet period (DEBOUNCE_MS with no further call). -/
inductive SEvent where
  | upd : String → SEvent
  | elapse : SEvent

/-- State of the debounce model.  The restartable `_search` task first
awaits timeout(DEBOUNCE_MS) and only then issues its request, and a new
perform cancels an instance still suspended at the timeout, so within one
quiet period at most one instance is pending and only its term can ever
reach the request; `pending` is that instance's term.  `issued` collects
the urls of the HTTP requests actually issued, in order. -/
structure SearchModel where
  client : ClientState
  pending : Option String
  issued : List String

/-- One step of the debounce model.  An `updateSearch` call follows the
source: early return when the term is unchanged, else set the term, reset,
and either restart the debounced `_search` task (non-empty term) or
perform `_loadNew` immediately (empty term).  At `elapse` the pending
search instance passes its timeout and issues its request.  (The model
tracks request issuance only; responses are applied elsewhere.) -/
def searchStep (m : SearchModel) : SEvent → SearchModel
  | SEvent.upd term =>
    if term = m.client.searchTerm then m
    else
      let client := reset { m.client with searchTerm := term }
      if term = "" then
        { client := client, pending := m.pending, issued := m.issued ++ [defaultUrl] }
      else
        { client := client, pending := some term, issued := m.issued }
  | SEvent.elapse =>
    match m.pending with
    | some t => { m with pending := none, issued := m.issued ++ [searchUrl t] }
    | none => m

/-- Run the debounce model over a list of events. -/
def runSearch (events : List SEvent) (m : SearchModel) : SearchModel :=
  events.foldl searchStep m

/-! ### Lemmas about the balancing primitives -/

theorem listMin_cons (x : ℚ) (xs : List ℚ) (h : xs ≠ []) :
    listMin (x :: xs) = min x (listMin xs) := by
  cases xs with
  | nil => exact absurd rfl h
  | cons y ys => rfl

theorem listMax_cons (x : ℚ) (xs : List ℚ) (h : xs ≠ []) :
    listMax (x :: xs) = max x (listMax xs) := by
  cases xs with
  | nil => exact absurd rfl h
  | cons y ys => rfl

theorem listMin_le_of_mem : ∀ (l : List ℚ) (a : ℚ), a ∈ l → listMin l ≤ a := by
  intro l
  induction l with
  | nil => intro a h; cases h
  | cons x xs ih =>
    intro a h
    cases xs with
    | nil =>
      rcases List.mem_singleton.mp h with rfl
      simp [listMin]
    | cons y ys =>
      rw [listMin]
      rcases List.mem_cons.mp h with rfl | hmem
      · exact min_le_left _ _
      · exact le_trans (min_le_right _ _) (ih a hmem)

theorem le_listMax_of_mem : ∀ (l : List ℚ) (a : ℚ), a ∈ l → a ≤ listMax l := by
  intro l
  induction l with
  | nil => intro a h; cases h
  | cons x xs ih =>
    intro a h
    cases xs with
    | nil =>
      rcases List.mem_singleton.mp h with rfl
      simp [listMax]
    | cons y ys =>
      rw [listMax]
      rcases List.mem_cons.mp h with rfl | hmem
      · exact le_max_left _ _
      · exact le_trans (ih a hmem) (le_max_right _ _)

theorem minIdx_lt_length : ∀ (l : List ℚ), l ≠ [] → minIdx l < l.length := by
  intro l
  induction l with
  | nil => intro h; exact absurd rfl h
  | cons x xs ih =>
    intro _
    cases xs with
    | nil => simp [minIdx]
    | cons y ys =>
      rw [minIdx]
      by_cases hx : x ≤ listMin (y :: ys)
      · simp [hx]
      · simp only [hx, if_false]
        have := ih (by simp)
        simpa using Nat.succ_lt_succ this

theorem getD_minIdx : ∀ (l : List ℚ), l ≠ [] → l.getD (minIdx l) 0 = listMin l := by
  intro l
  induction l with
  | nil => intro h; exact absurd rfl h
  | cons x xs ih =>
    intro _
    cases xs with
    | nil => simp [minIdx, listMin]
    | cons y ys =>
      rw [minIdx, listMin]
      by_cases hx : x ≤ listMin (y :: ys)
      · simp [hx, min_eq_left hx]
      · have hlt : listMin (y :: ys) < x := lt_of_not_le hx
        simp only [hx, if_false]
        rw [List.getD_cons_succ, ih (by simp), min_eq_right (le_of_lt hlt)]

theorem listMin_lt_of_lt_minIdx :
    ∀ (l : List ℚ) (j : Nat), j < minIdx l → listMin l < l.getD j 0 := by
  intro l
  induction l with
  | nil => intro j h; simp [minIdx] at h
  | cons x xs ih =>
    intro j h
    cases xs with
    | nil => simp [minIdx] at h
    | cons y ys =>
      rw [minIdx] at h
      by_cases hx : x ≤ listMin (y :: ys)
      · simp [hx] at h
      · have hlt : listMin (y :: ys) < x := lt_of_not_le hx
        simp only [hx, if_false] at h
        rw [listMin_cons x (y :: ys) (by simp), min_eq_right (le_of_lt hlt)]
        cases j with
        | zero => simpa using hlt
        | succ k =>
          rw [List.getD_cons_succ]
          exact ih k (Nat.lt_of_succ_lt_succ h)

theorem listMax_set :
    ∀ (l : List ℚ) (i : Nat) (v : ℚ), i < l.length →
      listMax (l.set i v) ≤ max (listMax l) v := by
  intro l
  induction l with
  | nil => intro i v h; simp at h
  | cons x xs ih =>
    intro i v h
    cases i with
    | zero =>
      cases xs with
      | nil => simp [listMax]
      | cons y ys =>
        rw [List.set_cons_zero, listMax_cons v (y :: ys) (by simp),
            listMax_cons x (y :: ys) (by simp)]
        apply max_le
        · exact le_max_right _ _
        · exact le_trans (le_max_right x _) (le_max_left _ _)
    | succ k =>
      have hk : k < xs.length := by simpa using h
      have hxs : xs ≠ [] := List.ne_nil_of_length_pos (by omega)
      have hset : xs.set k v ≠ [] := by
        apply List.ne_nil_of_length_pos
        rw [List.length_set]
        omega
      rw [List.set_cons_succ, listMax_cons x _ hset, listMax_cons x xs hxs]
      apply max_le
      · exact le_trans (le_max_left x (listMax xs)) (le_max_left _ _)
      · exact le_trans (ih k v hk) (max_le_max (le_max_right x _) (le_refl v))

theorem listMin_set :
    ∀ (l : List ℚ) (i : Nat) (v : ℚ), i < l.length →
      min (listMin l) v ≤ listMin (l.set i v) := by
  intro l
  induction l with
  | nil => intro i v h; simp at h
  | cons x xs ih =>
    intro i v h
    cases i with
    | zero =>
      cases xs with
      | nil => simp [listMin]
      | cons y ys =>
        rw [List.set_cons_zero, listMin_cons v (y :: ys) (by simp),
            listMin_cons x (y :: ys) (by simp)]
        apply le_min
        · exact min_le_right _ _
        · exact le_trans (min_le_left _ v) (min_le_right x (listMin (y :: ys)))
    | succ k =>
      have hk : k < xs.length := by simpa using h
      have hxs : xs ≠ [] := List.ne_nil_of_length_pos (by omega)
      have hset : xs.set k v ≠ [] := by
        apply List.ne_nil_of_length_pos
        rw [List.length_set]
        omega
      rw [List.set_cons_succ, listMin_cons x _ hset, listMin_cons x xs hxs]
      apply le_min
      · exact le_trans (min_le_left _ _) (min_le_left x (listMin xs))
      · exact le_trans (min_le_min (min_le_right x _) (le_refl v)) (ih k v hk)

theorem listMax_replicate_zero : ∀ (n : Nat), listMax (List.replicate n 0) = 0 := by
  intro n
  induction n with
  | zero => rfl
  | succ k ih =>
    cases k with
    | zero => rfl
    | succ m =>
      rw [List.replicate_succ, listMax_cons 0 _ (by simp), ih]
      simp

theorem listMin_replicate_zero : ∀ (n : Nat), listMin (List.replicate n 0) = 0 := by
  intro n
  induction n with
  | zero => rfl
  | succ k ih =>
    cases k with
    | zero => rfl
    | succ m =>
      rw [List.replicate_succ, listMin_cons 0 _ (by simp), ih]
      simp

/-- One balancing step grows the max-min height spread to at most the
larger of the old spread and the added contribution. -/
theorem diff_addPhotoToColumns (p : Photo) (cs : ColumnState)
    (hne : cs.heights ≠ []) (hc : 0 < 300 * p.ratio) :
    listMax (addPhotoToColumns p cs).heights - listMin (addPhotoToColumns p cs).heights ≤
      max (listMax cs.heights - listMin cs.heights) (300 * p.ratio) := by
  have hi : minIdx cs.heights < cs.heights.length := minIdx_lt_length _ hne
  have hget : cs.heights.getD (minIdx cs.heights) 0 = listMin cs.heights := getD_minIdx _ hne
  have hheights : (addPhotoToColumns p cs).heights =
      cs.heights.set (minIdx cs.heights) (listMin cs.heights + 300 * p.ratio) := by
    rw [← hget]; rfl
  rw [hheights]
  have h1 := listMax_set cs.heights (minIdx cs.heights) (listMin cs.heights + 300 * p.ratio) hi
  have h2 := listMin_set cs.heights (minIdx cs.heights) (listMin cs.heights + 300 * p.ratio) hi
  have h3 : min (listMin cs.heights) (listMin cs.heights + 300 * p.ratio) = listMin cs.heights :=
    min_eq_left (by linarith)
  rw [h3] at h2
  have h4 : max (listMax cs.heights) (listMin cs.heights + 300 * p.ratio) - listMin cs.heights =
      max (listMax cs.heights - listMin cs.heights) (300 * p.ratio) := by
    rw [← max_sub_sub_right]
    congr 1
    ring
  linarith [h1, h2, h4.le, h4.ge]

theorem addPhotoToColumns_heights_ne_nil (p : Photo) (cs : ColumnState)
    (hne : cs.heights ≠ []) : (addPhotoToColumns p cs).heights ≠ [] := by
  apply List.ne_nil_of_length_pos
  simp [addPhotoToColumns]
  exact List.length_pos.mpr hne

/-- Fold form of the spread invariant: if every contribution is positive
and bounded by B, a spread bounded by B stays bounded by B. -/
theorem diff_addAll_le : ∀ (ps : List Photo) (cs : ColumnState) (B : ℚ),
    cs.heights ≠ [] →
    (∀ p ∈ ps, 0 < 300 * p.ratio ∧ 300 * p.ratio ≤ B) →
    listMax cs.heights - listMin cs.heights ≤ B →
    listMax (addAll ps cs).heights - listMin (addAll ps cs).heights ≤ B := by
  intro ps
  induction ps with
  | nil => intro cs B _ _ h3; exact h3
  | cons p rest ih =>
    intro cs B h1 h2 h3
    have hp := h2 p (List.mem_cons_self p rest)
    have hstep := diff_addPhotoToColumns p cs h1 hp.1
    have hgoal : addAll (p :: rest) cs = addAll rest (addPhotoToColumns p cs) := rfl
    rw [hgoal]
    apply ih (addPhotoToColumns p cs) B (addPhotoToColumns_heights_ne_nil p cs h1)
    · intro q hq
      exact h2 q (List.mem_cons_of_mem p hq)
    · exact le_trans hstep (max_le h3 hp.2)

/-- C1: for every sequence of photos with positive ratios added one-by-one
via the column balancing rule to a column set that starts with all
accumulated heights zero, the difference between the largest and the
smallest accumulated column height is at most the largest single height
contribution (300 * ratio) of any photo added in the sequence.  The
statement quantifies over all sequences, so it applies in particular to
every prefix of a longer sequence, i.e. after every addition. -/
theorem c1_balance_spread_bounded (n : Nat) (hn : 0 < n) (ps : List Photo)
    (hps : ∀ p ∈ ps, 0 < p.ratio) :
    listMax (addAll ps (emptyColumns n)).heights -
      listMin (addAll ps (emptyColumns n)).heights ≤
      listMax (ps.map (fun p => 300 * p.ratio)) := by
  have hne : (emptyColumns n).heights ≠ [] := by
    simp [emptyColumns]
    omega
  have hdiff0 : listMax (emptyColumns n).heights - listMin (emptyColumns n).heights = 0 := by
    simp [emptyColumns, listMax_replicate_zero, listMin_replicate_zero]
  cases ps with
  | nil =>
    simp only [addAll, List.foldl_nil, List.map_nil]
    rw [hdiff0]
    rfl
  | cons p rest =>
    apply diff_addAll_le (p :: rest) (emptyColumns n) _ hne
    · intro q hq
      constructor
      · have := hps q hq
        linarith
      · exact le_listMax_of_mem _ _ (List.mem_map_of_mem (fun p => 300 * p.ratio) hq)
    · rw [hdiff0]
      have hmem : 300 * p.ratio ∈ (p :: rest).map (fun p => 300 * p.ratio) :=
        List.mem_map_of_mem _ (List.mem_cons_self p rest)
      have hle := le_listMax_of_mem _ _ hmem
      have hpos : 0 < 300 * p.ratio := by
        have := hps p (List.mem_cons_self p rest)
        linarith
      linarith

/-- Witness for C1 at a concrete instance: three columns, two photos with
ratios 2 and 1. -/
theorem c1_balance_spread_bounded_witness :
    listMax (addAll [⟨10, 20, 2⟩, ⟨10, 10, 1⟩] (emptyColumns 3)).heights -
      listMin (addAll [⟨10, 20, 2⟩, ⟨10, 10, 1⟩] (emptyColumns 3)).heights ≤
      listMax (([⟨10, 20, 2⟩, ⟨10, 10, 1⟩] : List Photo).map (fun p => 300 * p.ratio)) :=
  c1_balance_spread_bounded 3 (by decide) [⟨10, 20, 2⟩, ⟨10, 10, 1⟩] (by decide)

theorem flatten_set_append (cols : List (List Photo)) :
    ∀ (i : Nat) (p : Photo), i < cols.length →
      ((cols.set i ((cols.getD i []) ++ [p])).flatten).Perm (cols.flatten ++ [p]) := by
  induction cols with
  | nil => intro i p h; simp at h
  | cons x xs ih =>
    intro i p h
    cases i with
    | zero =>
      simp only [List.getD_cons_zero, List.set_cons_zero, List.flatten_cons]
      rw [List.append_assoc, List.append_assoc]
      exact List.perm_append_comm.append_left x
    | succ k =>
      have hk : k < xs.length := by simpa using h
      simp only [List.getD_cons_succ, List.set_cons_succ, List.flatten_cons]
      rw [List.append_assoc]
      exact (ih k p hk).append_left x

theorem addPhotoToColumns_columns (p : Photo) (cs : ColumnState) :
    (addPhotoToColumns p cs).columns =
      cs.columns.set (minIdx cs.heights) ((cs.columns.getD (minIdx cs.heights) []) ++ [p]) := rfl

theorem addPhotoToColumns_length (p : Photo) (cs : ColumnState)
    (h : cs.columns.length = cs.heights.length) :
    (addPhotoToColumns p cs).columns.length = (addPhotoToColumns p cs).heights.length := by
  simp [addPhotoToColumns, h]

/-- Each balancing step appends exactly the new photo to the flattened
column contents, up to permutation. -/
theorem flatten_addAll_perm : ∀ (ps : List Photo) (cs : ColumnState),
    cs.heights ≠ [] → cs.columns.length = cs.heights.length →
    ((addAll ps cs).columns.flatten).Perm (cs.columns.flatten ++ ps) := by
  intro ps
  induction ps with
  | nil => intro cs _ _; simp [addAll]
  | cons p rest ih =>
    intro cs h1 h2
    have hi : minIdx cs.heights < cs.columns.length := by
      rw [h2]; exact minIdx_lt_length _ h1
    have hstep := flatten_set_append cs.columns (minIdx cs.heights) p hi
    have hrec := ih (addPhotoToColumns p cs) (addPhotoToColumns_heights_ne_nil p cs h1)
      (addPhotoToColumns_length p cs h2)
    have hfold : addAll (p :: rest) cs = addAll rest (addPhotoToColumns p cs) := rfl
    rw [hfold]
    refine hrec.trans ?_
    rw [addPhotoToColumns_columns]
    have heq : (cs.columns.flatten ++ [p]) ++ rest = cs.columns.flatten ++ (p :: rest) := by
      rw [List.append_assoc]; rfl
    rw [← heq]
    exact hstep.append_right rest

theorem flatten_replicate_nil : ∀ (n : Nat), (List.replicate n ([] : List Photo)).flatten = [] := by
  intro n
  induction n with
  | zero => rfl
  | succ k ih => rw [List.replicate_succ, List.flatten_cons, ih]; rfl

/-- C2: a photo is placed in exactly one column, the one at the lowest
index among those of minimal accumulated height; consequently, after any
sequence of additions starting from the empty column set, the flattened
column contents are a permutation of the added photo list (every photo
appears in exactly one column, with multiplicity). -/
theorem c2_photo_placed_in_unique_min_column (p : Photo) (cs : ColumnState)
    (hne : cs.heights ≠ []) (hlen : cs.columns.length = cs.heights.length) :
    (cs.heights.getD (minIdx cs.heights) 0 = listMin cs.heights ∧
     (∀ j, j < cs.heights.length → listMin cs.heights ≤ cs.heights.getD j 0) ∧
     (∀ j, j < minIdx cs.heights → listMin cs.heights < cs.heights.getD j 0) ∧
     (addPhotoToColumns p cs).columns.getD (minIdx cs.heights) [] =
       cs.columns.getD (minIdx cs.heights) [] ++ [p] ∧
     (∀ j, j ≠ minIdx cs.heights →
       (addPhotoToColumns p cs).columns.getD j [] = cs.columns.getD j [])) ∧
    (∀ (n : Nat) (ps : List Photo), 0 < n →
      ((addAll ps (emptyColumns n)).columns.flatten).Perm ps) := by
  have hi : minIdx cs.heights < cs.columns.length := by
    rw [hlen]; exact minIdx_lt_length _ hne
  refine ⟨⟨getD_minIdx _ hne, ?_, ?_, ?_, ?_⟩, ?_⟩
  · intro j hj
    refine listMin_le_of_mem _ _ ?_
    rw [List.getD_eq_getElem _ _ hj]
    exact List.getElem_mem hj
  · exact fun j hj => listMin_lt_of_lt_minIdx _ j hj
  · rw [addPhotoToColumns_columns, List.getD_eq_getElem _ _ (by simpa using hi)]
    simp
  · intro j hj
    rw [addPhotoToColumns_columns]
    by_cases hjl : j < cs.columns.length
    · rw [List.getD_eq_getElem _ _ (by simpa using hjl), List.getD_eq_getElem _ _ hjl]
      exact List.getElem_set_ne (fun h => hj h.symm) _
    · rw [List.getD_eq_default _ _ (by simp; omega), List.getD_eq_default _ _ (by omega)]
  · intro n ps hn
    have h1 : (emptyColumns n).heights ≠ [] := by
      simp [emptyColumns]; omega
    have h2 : (emptyColumns n).columns.length = (emptyColumns n).heights.length := by
      simp [emptyColumns]
    have hperm := flatten_addAll_perm ps (emptyColumns n) h1 h2
    rw [show (emptyColumns n).columns = List.replicate n [] from rfl,
        flatten_replicate_nil, List.nil_append] at hperm
    exact hperm

/-- A sample photo used by several concrete instances below. -/
def ph : Photo := { width := 10, height := 10, ratio := 1 }

/-- Witness for C2 at a concrete instance: the empty three-column set. -/
theorem c2_photo_placed_in_unique_min_column_witness :
    ((emptyColumns 3).heights.getD (minIdx (emptyColumns 3).heights) 0 =
       listMin (emptyColumns 3).heights) ∧
    ((addAll [ph] (emptyColumns 3)).columns.flatten).Perm [ph] :=
  ⟨(c2_photo_placed_in_unique_min_column ph (emptyColumns 3) (by decide) rfl).1.1,
   (c2_photo_placed_in_unique_min_column ph (emptyColumns 3) (by decide) rfl).2 3 [ph]
     (by decide)⟩

/-- A reachable service state holding one photo in three columns. -/
def c3State : ClientState :=
  { columnCount := 3, columns := [[ph], [], []], columnHeights := [300, 0, 0],
    photos := [ph], pagination := [], searchTerm := "",
    error := some (Json.jStr ""), lastRequestUrl := none }

/-- Counterexample to C3 as stated: with the new column count 0 (different
from the current count 3) the redistribution places the photo in no
column, so the total photo count across the column set is no longer the
length of the flat list.  (At this input the JavaScript code throws a
TypeError at columns[-1].pushObject after having already installed the
empty column set, so the photo is likewise in no column.) -/
theorem c3_counterexample :
    (0 : Nat) ≠ c3State.columnCount ∧
    ((changeColumnCount 0 c3State).columns.map List.length).sum ≠ c3State.photos.length := by
  decide

/-- C3 amended: for every new column count n ≥ 1 different from the
current one, changeColumnCount keeps the flat photo list, rebuilds the
column set and heights exactly as adding the photos of the flat list
one-by-one, in list order, to an empty column set of n columns with all
heights zero, and preserves the total photo count across the column set. -/
theorem c3_change_column_count_rebuild (n : Nat) (st : ClientState)
    (hn : 0 < n) (hne : n ≠ st.columnCount) :
    (changeColumnCount n st).photos = st.photos ∧
    (changeColumnCount n st).columns = (addAll st.photos (emptyColumns n)).columns ∧
    (changeColumnCount n st).columnHeights = (addAll st.photos (emptyColumns n)).heights ∧
    ((changeColumnCount n st).columns.map List.length).sum = st.photos.length := by
  have hcc : changeColumnCount n st = resetColumns { st with columnCount := n } := by
    simp [changeColumnCount, hne]
  refine ⟨?_, ?_, ?_, ?_⟩ <;> rw [hcc]
  · rfl
  · rfl
  · rfl
  · have hcols : (resetColumns { st with columnCount := n }).columns =
        (addAll st.photos (emptyColumns n)).columns := rfl
    rw [hcols, ← List.length_flatten]
    have h1 : (emptyColumns n).heights ≠ [] := by
      simp [emptyColumns]; omega
    have h2 : (emptyColumns n).columns.length = (emptyColumns n).heights.length := by
      simp [emptyColumns]
    have hperm := flatten_addAll_perm st.photos (emptyColumns n) h1 h2
    rw [show (emptyColumns n).columns = List.replicate n [] from rfl,
        flatten_replicate_nil, List.nil_append] at hperm
    exact hperm.length_eq

/-- Witness for the amended C3 at a concrete instance: redistributing one
photo from three columns into two. -/
theorem c3_change_column_count_rebuild_witness :
    ((changeColumnCount 2 c3State).columns.map List.length).sum = c3State.photos.length :=
  (c3_change_column_count_rebuild 2 c3State (by decide) (by decide)).2.2.2

/-- Observer extracting the string content of a modelled JavaScript
value, used to compare error-field values decidably. -/
def errString : JsVal → Option String
  | some (Json.jStr s) => some s
  | _ => none

/-- The first component of `_checkStatus` only ever rewrites the error
field: every other service state field is returned unchanged. -/
theorem checkStatus_frame (response : Response) (st : ClientState) :
    (checkStatus response st).1.photos = st.photos ∧
    (checkStatus response st).1.columns = st.columns ∧
    (checkStatus response st).1.columnHeights = st.columnHeights ∧
    (checkStatus response st).1.pagination = st.pagination ∧
    (checkStatus response st).1.searchTerm = st.searchTerm ∧
    (checkStatus response st).1.columnCount = st.columnCount ∧
    (checkStatus response st).1.lastRequestUrl = st.lastRequestUrl := by
  unfold checkStatus
  dsimp only
  repeat' split
  all_goals exact ⟨rfl, rfl, rfl, rfl, rfl, rfl, rfl⟩

/-- A plain 500 response with no usable body. -/
def testResp500 : Response :=
  { status := 500, contentType := none, rateLimitRemaining := none, link := none,
    jsonBody := none, textBody := "" }

/-- Counterexample to C4 as stated: a non-2xx response to sendTestRequest
changes the error field (from the empty string to the generic status
message), so not all of the listed state fields are left unchanged. -/
theorem c4_counterexample :
    (sendTestRequest "abc" (FetchOutcome.success testResp500) initState).1.error ≠
      initState.error := by
  intro h
  exact absurd (congrArg errString h) (by decide)

/-- C4 amended: for every caller-supplied credential and every fetch
outcome (any response, including non-2xx ones, or a network failure),
sendTestRequest leaves the photo list, column set, column heights,
pagination state and search term unchanged.  The error field is excluded
from the guarantee: a non-2xx response can rewrite it, as the
counterexample above shows. -/
theorem c4_send_test_request_frame (testApplicationId : String) (outcome : FetchOutcome)
    (st : ClientState) :
    (sendTestRequest testApplicationId outcome st).1.photos = st.photos ∧
    (sendTestRequest testApplicationId outcome st).1.columns = st.columns ∧
    (sendTestRequest testApplicationId outcome st).1.columnHeights = st.columnHeights ∧
    (sendTestRequest testApplicationId outcome st).1.pagination = st.pagination ∧
    (sendTestRequest testApplicationId outcome st).1.searchTerm = st.searchTerm := by
  cases outcome with
  | failure => exact ⟨rfl, rfl, rfl, rfl, rfl⟩
  | success response =>
    have h := checkStatus_frame response st
    exact ⟨h.1, h.2.1, h.2.2.1, h.2.2.2.1, h.2.2.2.2.1⟩

theorem jsOr_truthy (a b : JsVal) (h : jsTruthy a = true) : jsOr a b = a := by
  simp [jsOr, h]

theorem ratelimit_truthy : jsTruthy (some (Json.jStr ratelimitMsg)) = true := by decide

/-- On a 403 response with the rate-limit header at "0" whose body
inspection resolves, `_checkStatus` records exactly the fixed rate-limit
message and rejects with it. -/
theorem checkStatus_ratelimit (response : Response) (st : ClientState)
    (h403 : response.status = 403) (hrem : response.rateLimitRemaining = some "0")
    (hbody : response.contentType ≠ some "application/json" ∨
      ∃ j v, response.jsonBody = some j ∧ errorsHead j = Except.ok v) :
    checkStatus response st =
      ({ st with error := some (Json.jStr ratelimitMsg) },
       Except.error (some (Json.jStr ratelimitMsg))) := by
  have hnot2xx : ¬ (200 ≤ response.status ∧ response.status < 300) := by
    rw [h403]; omega
  obtain ⟨rt, hrt⟩ : ∃ rt, (if response.contentType = some "application/json" then
      (match response.jsonBody with
       | none => Except.error ()
       | some j => errorsHead j)
    else if response.contentType = some "text/xml" then
      Except.ok (some (Json.jStr response.textBody))
    else Except.ok none) = Except.ok rt := by
    rcases hbody with hct | ⟨j, v, hj, hv⟩
    · rw [if_neg hct]
      by_cases hxml : response.contentType = some "text/xml"
      · exact ⟨_, by rw [if_pos hxml]⟩
      · exact ⟨_, by rw [if_neg hxml]⟩
    · by_cases hct : response.contentType = some "application/json"
      · refine ⟨v, ?_⟩
        rw [if_pos hct, hj]
        exact hv
      · rw [if_neg hct]
        by_cases hxml : response.contentType = some "text/xml"
        · exact ⟨_, by rw [if_pos hxml]⟩
        · exact ⟨_, by rw [if_neg hxml]⟩
  unfold checkStatus
  rw [if_neg hnot2xx]
  dsimp only
  rw [hrt]
  dsimp only
  rw [if_pos (⟨h403, hrem⟩ : response.status = 403 ∧ response.rateLimitRemaining = some "0")]
  rw [jsOr_truthy _ _ ratelimit_truthy]

/-- C5 amended: for every response with status 403 and rate-limit header
"0" whose body inspection resolves (the content type is not
application/json, or the JSON body parses and json.errors[0] does not
throw), the error recorded by the request is exactly the fixed rate-limit
message, overriding any body-derived message. -/
theorem c5_ratelimit_overrides (url : String) (response : Response) (st : ClientState)
    (h403 : response.status = 403) (hrem : response.rateLimitRemaining = some "0")
    (hbody : response.contentType ≠ some "application/json" ∨
      ∃ j v, response.jsonBody = some j ∧ errorsHead j = Except.ok v) :
    (makeRequest url (FetchOutcome.success response) st).error =
      some (Json.jStr ratelimitMsg) := by
  unfold makeRequest makeRequestChain
  dsimp only
  rw [checkStatus_ratelimit response
    { st with error := some (Json.jStr ""), lastRequestUrl := some url } h403 hrem hbody]
  dsimp only
  rw [ratelimit_truthy]
  rfl

/-- A 403 rate-limited response whose JSON body lacks an errors array, so
json.errors[0] throws. -/
def resp403Json : Response :=
  { status := 403, contentType := some "application/json", rateLimitRemaining := some "0",
    link := none, jsonBody := some (Json.jObj []), textBody := "" }

/-- Counterexample to C5 as stated: on a 403 rate-limited response whose
JSON body has no errors array, json.errors[0] throws before the override,
and the request records the generic connectivity message instead of the
fixed rate-limit message. -/
theorem c5_counterexample :
    (makeRequest "u" (FetchOutcome.success resp403Json) initState).error =
      some (Json.jStr connectivityMsg) ∧ connectivityMsg ≠ ratelimitMsg :=
  ⟨rfl, by decide⟩

/-- A 403 rate-limited response with an XML body. -/
def resp403Xml : Response :=
  { status := 403, contentType := some "text/xml", rateLimitRemaining := some "0",
    link := none, jsonBody := none, textBody := "over the limit" }

/-- Witness for the amended C5 at a concrete instance: an XML-bodied 403
rate-limited response. -/
theorem c5_ratelimit_overrides_witness :
    (makeRequest "u" (FetchOutcome.success resp403Xml) initState).error =
      some (Json.jStr ratelimitMsg) :=
  c5_ratelimit_overrides "u" resp403Xml initState rfl rfl (Or.inl (by decide))

/-- A state with an empty photo list but a leftover pagination entry, as
produced by a successful request that returned a Link header and zero
photos. -/
def c6State : ClientState :=
  { columnCount := 3, columns := List.replicate 3 [], columnHeights := List.replicate 3 0,
    photos := [], pagination := [("next", "https://api.unsplash.com/photos?page=2")],
    searchTerm := "", error := some (Json.jStr ""), lastRequestUrl := none }

/-- Counterexample to C6 as stated: on an empty photo list with a
leftover pagination entry and a request that fails at the network level,
loadNew clears the pagination state before the request while loadNextPage
keeps it, so the two final states differ. -/
theorem c6_counterexample :
    (loadNextPage FetchOutcome.failure false false c6State).state.pagination ≠
      (loadNew FetchOutcome.failure false c6State).state.pagination := by
  decide

/-- C6 amended: with an empty photo list, no search in flight, and the
photo/column/pagination state in its freshly-reset form (empty pagination,
empty columns of the current count with zero heights — which is how every
reachable state with an empty photo list looks), loadNextPage behaves
identically to loadNew: same final state, same issued request, same
operation outcome. -/
theorem c6_load_next_page_like_load_new (outcome : FetchOutcome) (loadingRunning : Bool)
    (st : ClientState) (hphotos : st.photos = []) (hpag : st.pagination = [])
    (hcols : st.columns = List.replicate st.columnCount [])
    (hheights : st.columnHeights = List.replicate st.columnCount 0) :
    loadNextPage outcome false loadingRunning st = loadNew outcome loadingRunning st := by
  have hreset : reset st = st := by
    unfold reset resetColumns
    dsimp only
    cases st
    simp_all [addAll, emptyColumns]
  unfold loadNextPage loadNew
  rw [hreset, hphotos]
  rfl

/-- Witness for the amended C6: the initial service state with a failing
request. -/
theorem c6_load_next_page_like_load_new_witness :
    loadNextPage FetchOutcome.failure false false initState =
      loadNew FetchOutcome.failure false initState :=
  c6_load_next_page_like_load_new FetchOutcome.failure false initState rfl rfl rfl rfl

/-- C7: with a non-empty photo list, no search in flight and no "next"
entry in the pagination state, loadNextPage returns a rejected outcome
(the exhausted condition), issues no HTTP request, and leaves the whole
client state unchanged. -/
theorem c7_load_next_page_exhausted (outcome : FetchOutcome) (loadingRunning : Bool)
    (st : ClientState) (hphotos : st.photos ≠ [])
    (hnext : pagGet st.pagination "next" = none) :
    loadNextPage outcome false loadingRunning st =
      { state := st, request := none, outcome := Except.error none } := by
  unfold loadNextPage
  rw [if_neg (by simp), if_neg hphotos, hnext]

/-- A state holding one photo and an exhausted pagination mapping. -/
def c7State : ClientState :=
  { columnCount := 3, columns := [[ph], [], []], columnHeights := [300, 0, 0],
    photos := [ph], pagination := [("prev", "https://api.unsplash.com/photos?page=1")],
    searchTerm := "", error := some (Json.jStr ""), lastRequestUrl := none }

/-- Witness for C7 at a concrete instance. -/
theorem c7_load_next_page_exhausted_witness :
    loadNextPage FetchOutcome.failure false false c7State =
      { state := c7State, request := none, outcome := Except.error none } :=
  c7_load_next_page_exhausted FetchOutcome.failure false c7State (by decide) (by decide)

theorem connectivity_truthy : jsTruthy (some (Json.jStr connectivityMsg)) = true := by
  decide

/-- Whenever the request chain rejects, the catch handler of
`_makeRequest` leaves a truthy (non-empty) error value behind: either the
message recorded earlier in the chain, or the generic connectivity
message. -/
theorem makeRequest_error_on_chain_failure (url : String) (outcome : FetchOutcome)
    (st : ClientState) (h : (makeRequestChain url outcome st).2 = Except.error ()) :
    jsTruthy (makeRequest url outcome st).error = true := by
  unfold makeRequest
  rcases hpr : makeRequestChain url outcome st with ⟨st1, r⟩
  rw [hpr] at h
  simp only at h
  rw [h]
  by_cases ht : jsTruthy st1.error = true
  · simp [ht]
  · simp [ht, connectivity_truthy]

/-- C8 amended: every failure of a request issued through the shared
request path (loadNew, loadNextPage's page request, the debounced search)
is surfaced only by leaving a truthy message in the error field, and the
operation outcome the caller sees resolves without a result whenever a
request was issued.  (sendTestRequest, excluded by the amendment, instead
propagates its rejection to the caller, and loadNextPage's exhausted
branch returns a rejection without issuing a request.) -/
theorem c8_request_failures_swallowed (url : String) (outcome : FetchOutcome)
    (st : ClientState) (h : (makeRequestChain url outcome st).2 = Except.error ()) :
    jsTruthy (makeRequest url outcome st).error = true ∧
    (∀ loadingRunning, (loadNew outcome loadingRunning st).outcome = Except.ok ()) ∧
    (∀ searchRunning loadingRunning,
      (loadNextPage outcome searchRunning loadingRunning st).request.isSome = true →
      (loadNextPage outcome searchRunning loadingRunning st).outcome = Except.ok ()) := by
  refine ⟨makeRequest_error_on_chain_failure url outcome st h, ?_, ?_⟩
  · intro lr
    cases lr <;> rfl
  · intro sr lr hreq
    unfold loadNextPage at hreq ⊢
    cases sr with
    | true => simp_all
    | false =>
      by_cases hp : st.photos = []
      · cases lr <;> simp_all
      · rcases hn : pagGet st.pagination "next" with _ | u
        · simp_all
        · by_cases hu : u = ""
          · simp_all
          · cases lr <;> simp_all

/-- Counterexample to C8 as stated: sendTestRequest is a public operation,
and on a plain 500 response its returned outcome is a rejection carrying
the derived error, not a resolution without result. -/
theorem c8_counterexample :
    (sendTestRequest "abc" (FetchOutcome.success testResp500) initState).2 =
      Except.error (some (Json.jStr (genericMsg 500))) := rfl

/-- Witness for the amended C8: a network-level failure of the default
listing request leaves a truthy error message. -/
theorem c8_request_failures_swallowed_witness :
    jsTruthy (makeRequest "u" FetchOutcome.failure initState).error = true :=
  (c8_request_failures_swallowed "u" FetchOutcome.failure initState rfl).1

theorem reset_searchTerm (st : ClientState) : (reset st).searchTerm = st.searchTerm := rfl

/-- An updateSearch call with a fresh, non-empty term restarts the
debounced search task: the previously pending term (if any) is superseded
and no request is issued yet. -/
theorem searchStep_upd_fresh (c : ClientState) (pd : Option String) (iss : List String)
    (term : String) (hne : term ≠ c.searchTerm) (hterm : term ≠ "") :
    searchStep { client := c, pending := pd, issued := iss } (SEvent.upd term) =
      { client := reset { c with searchTerm := term }, pending := some term,
        issued := iss } := by
  unfold searchStep
  dsimp only
  rw [if_neg hne, if_neg hterm]

/-- C9: three updateSearch calls with the terms "a", "ab", "abc" inside
one debounce quiet period issue exactly one HTTP request, the search
request for the final term "abc"; the superseded terms never reach the
network. -/
theorem c9_debounce_single_request (st : ClientState) (pending : Option String)
    (h : st.searchTerm ≠ "a") :
    (runSearch [SEvent.upd "a", SEvent.upd "ab", SEvent.upd "abc", SEvent.elapse]
      { client := st, pending := pending, issued := [] }).issued = [searchUrl "abc"] := by
  unfold runSearch
  simp only [List.foldl_cons, List.foldl_nil]
  rw [searchStep_upd_fresh st pending [] "a" (fun hh => h hh.symm) (by decide)]
  rw [searchStep_upd_fresh (reset { st with searchTerm := "a" }) (some "a") [] "ab"
    (by decide : ("ab" : String) ≠ "a") (by decide)]
  rw [searchStep_upd_fresh (reset { reset { st with searchTerm := "a" } with searchTerm := "ab" })
    (some "ab") [] "abc" (by decide : ("abc" : String) ≠ "ab") (by decide)]
  rfl

/-- Witness for C9 at a concrete instance: the initial service state. -/
theorem c9_debounce_single_request_witness :
    (runSearch [SEvent.upd "a", SEvent.upd "ab", SEvent.upd "abc", SEvent.elapse]
      { client := initState, pending := none, issued := [] }).issued = [searchUrl "abc"] :=
  c9_debounce_single_request initState none (by decide)

/-- C10: a 2xx response whose Link header contains an entry that does not
match the pattern of the link regex makes the whole request fail: the
pagination mapping and every other state field except the error and the
remembered url are unchanged (in particular no pagination entry from the
header is stored and no photo from the body is added), and the recorded
error is the generic connectivity message even though a response was
received. -/
theorem c10_bad_link_header_fails (url : String) (response : Response) (st : ClientState)
    (h2xx : 200 ≤ response.status ∧ response.status < 300) (l : String)
    (hlink : response.link = some l) (hlne : l ≠ "")
    (hbad : ∃ e ∈ splitComma l, linkExec e = none) :
    makeRequest url (FetchOutcome.success response) st =
      { st with error := some (Json.jStr connectivityMsg), lastRequestUrl := some url } := by
  have hall : (splitComma l).all (fun e => (linkExec e).isSome) = false := by
    rcases hbad with ⟨e, he, hnone⟩
    rw [List.all_eq_false]
    exact ⟨e, he, by simp [hnone]⟩
  have hcs : checkStatus response
      { st with error := some (Json.jStr ""), lastRequestUrl := some url } =
      ({ st with error := some (Json.jStr ""), lastRequestUrl := some url },
       Except.ok response) := by
    unfold checkStatus
    rw [if_pos h2xx]
  have hep : extractPagination response
      { st with error := some (Json.jStr ""), lastRequestUrl := some url } =
      ({ st with error := some (Json.jStr ""), lastRequestUrl := some url },
       Except.error none) := by
    unfold extractPagination
    rw [hlink]
    dsimp only
    rw [if_neg hlne, hall]
    rfl
  unfold makeRequest makeRequestChain
  dsimp only
  rw [hcs]
  dsimp only
  rw [hep]
  dsimp only
  rw [show jsTruthy (some (Json.jStr "")) = false from by decide]
  rfl

/-- A 2xx response whose Link header does not match the link pattern. -/
def c10Resp : Response :=
  { status := 200, contentType := none, rateLimitRemaining := none,
    link := some "garbage", jsonBody := some (Json.jArr []), textBody := "" }

/-- Witness for C10 at a concrete instance. -/
theorem c10_bad_link_header_fails_witness :
    makeRequest "u" (FetchOutcome.success c10Resp) initState =
      { initState with error := some (Json.jStr connectivityMsg), lastRequestUrl := some "u" } :=
  c10_bad_link_header_fails "u" c10Resp initState (by decide) "garbage" rfl (by decide)
    (by decide)

end Unsplash
